import Mathlib

set_option autoImplicit false

namespace MinimalAgent

/-!
Verification development for the minimalagent repository: a small agent
orchestration loop over a hosted model endpoint, with tool registration,
session persistence and reasoning traces.  Python strings are modelled as
lists of characters where character-level behaviour matters, and as `String`
elsewhere; Python numbers subject to true division are modelled as `Rat`.
-/

/-! ### count_words, from src/examples/reasoning_example.py -/

/-- Model of Python str.split with no arguments: split on runs of
whitespace, discarding empty pieces.  The accumulator holds the current
word reversed. -/
def pySplitAux : List Char → List Char → List (List Char)
  | [], acc => if acc.isEmpty then [] else [acc.reverse]
  | c :: cs, acc =>
    if c.isWhitespace then
      if acc.isEmpty then pySplitAux cs [] else acc.reverse :: pySplitAux cs []
    else
      pySplitAux cs (c :: acc)

def pySplit (text : List Char) : List (List Char) := pySplitAux text []

structure WordStats where
  word_count : Nat
  unique_words : Nat
  average_word_length : Rat
  deriving Repr, DecidableEq

/-- count_words from src/examples/reasoning_example.py: word count, distinct
word count, and average word length with the division guarded by
max(len(words), 1). -/
def count_words (text : List Char) : WordStats :=
  let words := pySplit text
  { word_count := words.length,
    unique_words := words.dedup.length,
    average_word_length :=
      ((words.map List.length).sum : Rat) / (((max words.length 1 : Nat)) : Rat) }

/-! ### search_database, from src/examples/docstring_tools_example.py -/

structure DBRecord where
  id : Nat
  name : List Char
  category : List Char
  deriving Repr, DecidableEq

/-- The in-memory sample database of search_database. -/
def database : List DBRecord :=
  [ ⟨1, "Apple".data, "Fruit".data⟩,
    ⟨2, "Banana".data, "Fruit".data⟩,
    ⟨3, "Carrot".data, "Vegetable".data⟩,
    ⟨4, "Dill".data, "Herb".data⟩,
    ⟨5, "Eggplant".data, "Vegetable".data⟩ ]

/-- Python str.lower, character by character. -/
def lowerStr (s : List Char) : List Char := s.map Char.toLower

/-- Python str.lower on the String type. -/
def strToLower (s : String) : String := ⟨lowerStr s.data⟩

/-- Python substring membership: needle occurs contiguously in hay. -/
def containsSub (needle : List Char) : List Char → Bool
  | [] => needle.isEmpty
  | c :: cs => needle.isPrefixOf (c :: cs) || containsSub needle cs

/-- The match test of the search loop: query occurs case-insensitively in
the record name or in its category. -/
def recordMatches (query : List Char) (item : DBRecord) : Bool :=
  containsSub (lowerStr query) (lowerStr item.name) ||
    containsSub (lowerStr query) (lowerStr item.category)

/-- The loop body of search_database: append a matching item to results,
then break as soon as len(results) >= limit. -/
def searchLoop (query : List Char) (limit : Int) :
    List DBRecord → List DBRecord → List DBRecord
  | results, [] => results
  | results, item :: rest =>
    if recordMatches query item then
      let results2 := results ++ [item]
      if (results2.length : Int) ≥ limit then results2
      else searchLoop query limit results2 rest
    else searchLoop query limit results rest

/-- search_database from src/examples/docstring_tools_example.py. -/
def search_database (query : List Char) (limit : Int) : List DBRecord :=
  searchLoop query limit [] database

/-! ### Conversation data model

Modelled from the spec: the minimalagent core package (the agent, session,
models and tool modules) is not under src/, so the data model of sections 3
and 4.3 of the spec — turns made of content blocks, and the
snapshot / hydrate pair with round-trip fidelity — is modelled here from
the spec text. -/

inductive Role where
  | user
  | assistant
  | tool_result
  deriving Repr, DecidableEq

/-- A JSON-like value: the serializable stored form used by the session
store, and the type of tool inputs and results. -/
inductive JValue where
  | str (s : String)
  | num (q : Rat)
  | boolean (b : Bool)
  | null
  | arr (elems : List JValue)
  | obj (fields : List (String × JValue))

/-- One content block of a turn: text, a tool-call request, or a tool-call
result, per section 3 of the spec. -/
inductive ContentBlock where
  | text (s : String)
  | toolUse (id : String) (name : String) (input : List (String × JValue))
  | toolResult (id : String) (content : List JValue) (status : String)

/-- One message unit of a conversation. -/
structure Turn where
  role : Role
  content : List ContentBlock

def roleToString : Role → String
  | .user => "user"
  | .assistant => "assistant"
  | .tool_result => "tool_result"

def roleOfString (s : String) : Option Role :=
  if s = "user" then some .user
  else if s = "assistant" then some .assistant
  else if s = "tool_result" then some .tool_result
  else none

/-- Modelled from the spec: serialize one content block to the stored
form. -/
def encodeBlock : ContentBlock → JValue
  | .text s => .obj [("text", .str s)]
  | .toolUse id name input =>
    .obj [("toolUse", .obj
      [("toolUseId", .str id), ("name", .str name), ("input", .obj input)])]
  | .toolResult id content status =>
    .obj [("toolResult", .obj
      [("toolUseId", .str id), ("content", .arr content),
       ("status", .str status)])]

/-- Modelled from the spec: parse one content block back from the stored
form. -/
def decodeBlock : JValue → Option ContentBlock
  | .obj [("text", .str s)] => some (.text s)
  | .obj [("toolUse", .obj
      [("toolUseId", .str id), ("name", .str name), ("input", .obj input)])] =>
    some (.toolUse id name input)
  | .obj [("toolResult", .obj
      [("toolUseId", .str id), ("content", .arr content),
       ("status", .str status)])] =>
    some (.toolResult id content status)
  | _ => none

def decodeBlocks : List JValue → Option (List ContentBlock)
  | [] => some []
  | v :: vs => do
    let b ← decodeBlock v
    let bs ← decodeBlocks vs
    pure (b :: bs)

def encodeTurn (t : Turn) : JValue :=
  .obj [("role", .str (roleToString t.role)),
        ("content", .arr (t.content.map encodeBlock))]

def decodeTurn : JValue → Option Turn
  | .obj [("role", .str r), ("content", .arr blocks)] => do
    let role ← roleOfString r
    let content ← decodeBlocks blocks
    pure ⟨role, content⟩
  | _ => none

def decodeTurns : List JValue → Option (List Turn)
  | [] => some []
  | v :: vs => do
    let t ← decodeTurn v
    let ts ← decodeTurns vs
    pure (t :: ts)

/-- Modelled from the spec, section 4.3: snapshot returns an immutable
serializable copy of the ordered sequence of turns. -/
def snapshot (conv : List Turn) : JValue := .arr (conv.map encodeTurn)

/-- Modelled from the spec, section 4.3: hydrate restores a conversation
from the stored form. -/
def hydrate : JValue → Option (List Turn)
  | .arr items => decodeTurns items
  | _ => none

/-! ### Session store adapter

Modelled from the spec, section 4.4: the session module is not under src/.
The durable table maps a session id to a serialized conversation snapshot
plus an absolute expiration timestamp; load fails open. -/

structure SessionRecord where
  messages : List Turn
  expiration_time : Nat

abbrev SessionTable := List (String × SessionRecord)

def lookupSession : SessionTable → String → Option SessionRecord
  | [], _ => none
  | (k, r) :: rest, sid => if k = sid then some r else lookupSession rest sid

/-- Modelled from the spec: load(session_id) fails open — it returns an
empty conversation when no record exists or the record has logically
expired, never a store error. -/
def sessionLoad (table : SessionTable) (now : Nat) (sid : String) : List Turn :=
  match lookupSession table sid with
  | none => []
  | some r => if now < r.expiration_time then r.messages else []

/-- Modelled from the spec: save(session_id, conversation, ttl) overwrites
the full snapshot with a fresh expiration_time (last-writer-wins). -/
def sessionSave (table : SessionTable) (sid : String) (conv : List Turn)
    (exp : Nat) : SessionTable :=
  (sid, ⟨conv, exp⟩) :: (table.filter fun e => e.1 != sid)

/-! ### Tool registry and schema resolver

Modelled from the spec, sections 4.1 and 4.2: the tool module is not under
src/.  A tool wraps a handler with a name, description and typed parameter
schema; the resolver derives the schema from the callable signature and
documentation, marking required exactly the parameters lacking a default. -/

structure ParamSchema where
  typeName : String
  description : String
  required : Bool
  default : Option JValue

/-- One parameter of a Python callable signature: name, annotated type and
default value when the source declares one. -/
structure PyParam where
  name : String
  pyType : String
  default : Option JValue

/-- A tool registration: explicit name and description overrides already
applied, per-parameter description text, the callable signature and the
handler.  A raised Python exception is modelled as Except.error. -/
structure ToolDef where
  name : String
  description : String
  paramDescs : List (String × String)
  params : List PyParam
  handler : List (String × JValue) → Except String JValue

abbrev Registry := List ToolDef

def lookupStr : List (String × String) → String → Option String
  | [], _ => none
  | (k, v) :: rest, key => if k = key then some v else lookupStr rest key

def lookupInput : List (String × JValue) → String → Option JValue
  | [], _ => none
  | (k, v) :: rest, key => if k = key then some v else lookupInput rest key

/-- Modelled from the spec: resolve one parameter — description from the
override or documentation, type from the signature, required iff the
signature declares no default. -/
def resolveParam (descs : List (String × String)) (p : PyParam) :
    String × ParamSchema :=
  (p.name,
   { typeName := p.pyType,
     description := (lookupStr descs p.name).getD "",
     required := p.default.isNone,
     default := p.default })

structure ToolSchema where
  toolName : String
  description : String
  parameters : List (String × ParamSchema)

/-- Modelled from the spec: the complete schema of one registered tool. -/
def resolveSchema (t : ToolDef) : ToolSchema :=
  { toolName := t.name,
    description := t.description,
    parameters := t.params.map (resolveParam t.paramDescs) }

/-- Modelled from the spec: the full set of tool schemas in the wire format
for the model endpoint — one entry per registered tool. -/
def get_schema_for_model (reg : Registry) : List ToolSchema :=
  reg.map resolveSchema

/-- The names an entry marks required. -/
def requiredNames (s : ToolSchema) : List String :=
  (s.parameters.filter fun pr => pr.2.required).map (fun pr => pr.1)

/-- A structured tool result: success payload or error description. -/
inductive ToolOutcome where
  | success (v : JValue)
  | error (message : String)

inductive RegistryError where
  | unknownTool (name : String)

def missingRequired (params : List PyParam)
    (inputs : List (String × JValue)) : List String :=
  (params.filter fun p =>
    p.default.isNone && (lookupInput inputs p.name).isNone).map (fun p => p.name)

/-- Modelled from the spec: apply declared defaults for omitted optional
parameters. -/
def withDefaults (params : List PyParam)
    (inputs : List (String × JValue)) : List (String × JValue) :=
  inputs ++ (params.filterMap fun p =>
    match p.default, lookupInput inputs p.name with
    | some d, none => some (p.name, d)
    | _, _ => none)

/-- Modelled from the spec, section 4.1: invoke looks the tool up (unknown
name is the registration-boundary UnknownToolError), validates required
inputs (a missing required parameter becomes a structured ValidationError
result), applies defaults, calls the handler, and converts any exception
the handler raises into a structured tool-error result instead of
propagating it. -/
def lookupTool : Registry → String → Option ToolDef
  | [], _ => none
  | t :: rest, n => if t.name = n then some t else lookupTool rest n

def invoke (reg : Registry) (name : String)
    (inputs : List (String × JValue)) : Except RegistryError ToolOutcome :=
  match lookupTool reg name with
  | none => Except.error (RegistryError.unknownTool name)
  | some t =>
    if (missingRequired t.params inputs).isEmpty then
      match t.handler (withDefaults t.params inputs) with
      | Except.ok v => Except.ok (ToolOutcome.success v)
      | Except.error msg => Except.ok (ToolOutcome.error msg)
    else
      Except.ok (ToolOutcome.error "ValidationError: missing required parameters")

/-! ### math_operation, from src/examples/docstring_tools_example.py -/

def mathResultObj (operation : String) (n1 n2 r : Rat) : JValue :=
  JValue.obj [("operation", JValue.str operation), ("number1", JValue.num n1),
              ("number2", JValue.num n2), ("result", JValue.num r)]

/-- math_operation from src/examples/docstring_tools_example.py: raising
ValueError is modelled as Except.error. -/
def math_operation (operation : String) (number1 number2 : Rat) :
    Except String JValue :=
  if strToLower operation = "add" then
    Except.ok (mathResultObj operation number1 number2 (number1 + number2))
  else if strToLower operation = "subtract" then
    Except.ok (mathResultObj operation number1 number2 (number1 - number2))
  else if strToLower operation = "multiply" then
    Except.ok (mathResultObj operation number1 number2 (number1 * number2))
  else if strToLower operation = "divide" then
    if number2 = 0 then Except.error "Cannot divide by zero"
    else Except.ok (mathResultObj operation number1 number2 (number1 / number2))
  else
    Except.error ("Unsupported operation: " ++ operation)

/-- The calculator handler as the registry calls it: extract the named
inputs and call math_operation; a call with malformed arguments raises a
TypeError in Python, modelled as Except.error. -/
def mathHandler (inputs : List (String × JValue)) : Except String JValue :=
  match lookupInput inputs "operation", lookupInput inputs "number1",
        lookupInput inputs "number2" with
  | some (JValue.str op), some (JValue.num n1), some (JValue.num n2) =>
    math_operation op n1 n2
  | _, _, _ => Except.error "TypeError: invalid arguments"

/-- The calculator registration from src/examples/docstring_tools_example.py:
name and description are explicit overrides; the signature is
math_operation(operation: str, number1: float, number2: float = 0). -/
def calculatorTool : ToolDef :=
  { name := "calculator",
    description := "Performs basic arithmetic operations",
    paramDescs :=
      [("operation", "The operation to perform (add, subtract, multiply, divide)"),
       ("number1", "First number in the operation"),
       ("number2", "Second number in the operation")],
    params :=
      [⟨"operation", "string", none⟩,
       ⟨"number1", "number", none⟩,
       ⟨"number2", "number", some (JValue.num 0)⟩],
    handler := mathHandler }

/-! ### Orchestration loop and agent run

Modelled from the spec, sections 4.5, 4.6, 5 and 6: the agent module is not
under src/.  The loop sends the full conversation to the model endpoint,
dispatches requested tools, enforces the iteration cap with a synthetic
final turn and a degraded-completion marker, then persists the final
conversation and one reasoning trace per invocation. -/

inductive StopReason where
  | end_turn
  | tool_use
  deriving Repr, DecidableEq

/-- The model endpoint response: a stop reason and an assistant message. -/
structure ModelResponse where
  stopReason : StopReason
  message : Turn

structure ToolCallRecord where
  name : String
  inputs : List (String × JValue)
  result : ToolOutcome

structure Step where
  thinking : String
  tool_calls : List ToolCallRecord

structure ReasoningTrace where
  query : String
  steps : List Step
  final_response : String
  total_steps : Nat

structure ReasoningEntry where
  sid : String
  timestamp : Nat
  trace : ReasoningTrace

/-- The durable store: one keyspace for session conversation snapshots and
one for reasoning traces keyed by session id and timestamp. -/
structure Store where
  sessions : SessionTable
  reasoning : List ReasoningEntry

/-- The environment of one invocation: the black-box model endpoint, the
tool dispatch step (producing one batched tool_result turn plus the
records for the reasoning trace), the iteration cap and the session TTL. -/
structure AgentEnv where
  model : List Turn → ModelResponse
  execTools : Turn → Turn × List ToolCallRecord
  maxIterations : Nat
  sessionTTL : Nat

/-- The concatenated text blocks of a turn. -/
def turnText (t : Turn) : String :=
  t.content.foldl
    (fun acc b =>
      match b with
      | ContentBlock.text s => acc ++ s
      | _ => acc) ""

def maxIterationsText : String :=
  "Maximum iterations reached without completing the task"

/-- Modelled from the spec: the synthetic final turn appended when the
iteration cap is reached without a DONE transition. -/
def maxIterationsTurn : Turn :=
  ⟨Role.assistant, [ContentBlock.text maxIterationsText]⟩

/-- Everything one loop execution produces: the final conversation, the
recorded steps, every message list sent to the model endpoint (in order),
the number of model calls, the degraded-completion marker and the final
answer text. -/
structure LoopOut where
  conv : List Turn
  steps : List Step
  requests : List (List Turn)
  modelCalls : Nat
  degraded : Bool
  finalText : String

/-- Modelled from the spec, section 4.6: the orchestration state machine
with the remaining iteration budget as fuel.  Exhausted fuel forces the
synthetic final turn and the degraded marker; an end_turn response
terminates normally; a tool_use response dispatches the tools, appends the
batched tool_result turn and loops. -/
def runLoop (env : AgentEnv) : Nat → List Turn → LoopOut
  | 0, conv =>
    { conv := conv ++ [maxIterationsTurn], steps := [], requests := [],
      modelCalls := 0, degraded := true, finalText := maxIterationsText }
  | Nat.succ n, conv =>
    let resp := env.model conv
    let conv2 := conv ++ [resp.message]
    match resp.stopReason with
    | StopReason.end_turn =>
      { conv := conv2, steps := [], requests := [conv], modelCalls := 1,
        degraded := false, finalText := turnText resp.message }
    | StopReason.tool_use =>
      let execRes := env.execTools resp.message
      let rest := runLoop env n (conv2 ++ [execRes.1])
      { conv := rest.conv,
        steps := ⟨turnText resp.message, execRes.2⟩ :: rest.steps,
        requests := conv :: rest.requests,
        modelCalls := rest.modelCalls + 1,
        degraded := rest.degraded,
        finalText := rest.finalText }

def maxSessionIdLength : Nat := 128

/-- Modelled from the spec, section 3: a session id must match the
validated pattern — alphanumeric characters only, bounded length. -/
def validSessionId (sid : String) : Bool :=
  decide (1 ≤ sid.length) && decide (sid.length ≤ maxSessionIdLength) &&
    sid.data.all Char.isAlphanum

def userTurn (q : String) : Turn := ⟨Role.user, [ContentBlock.text q]⟩

structure RunResult where
  answer : String
  trace : ReasoningTrace
  store : Store
  requests : List (List Turn)

/-- Modelled from the spec, sections 2, 4.4 and 4.6: run loads the stored
conversation when a valid session id is supplied, appends the new user
turn, drives the orchestration loop, and on completion persists the final
conversation under the session id with a fresh expiration time and appends
one reasoning-history entry.  An invalid session id leaves the store
untouched and the invocation runs session-less. -/
def run (env : AgentEnv) (store : Store) (now : Nat) (query : String)
    (sessionId : Option String) : RunResult :=
  let conv0 := match sessionId with
    | some sid =>
      if validSessionId sid then sessionLoad store.sessions now sid else []
    | none => []
  let conv1 := conv0 ++ [userTurn query]
  let out := runLoop env env.maxIterations conv1
  let trace : ReasoningTrace :=
    { query := query, steps := out.steps, final_response := out.finalText,
      total_steps := out.steps.length }
  let store2 := match sessionId with
    | some sid =>
      if validSessionId sid then
        { sessions := sessionSave store.sessions sid out.conv (now + env.sessionTTL),
          reasoning := store.reasoning ++ [⟨sid, now, trace⟩] }
      else store
    | none => store
  { answer := out.finalText, trace := trace, store := store2,
    requests := out.requests }

def insertByTs (e : ReasoningEntry) :
    List ReasoningEntry → List ReasoningEntry
  | [] => [e]
  | x :: xs =>
    if e.timestamp < x.timestamp then e :: x :: xs else x :: insertByTs e xs

def sortByTs : List ReasoningEntry → List ReasoningEntry
  | [] => []
  | x :: xs => insertByTs x (sortByTs xs)

/-- Modelled from the spec, sections 4.4 and 6: fetch all reasoning entries
for a session id ordered by timestamp, oldest first (newest last). -/
def get_reasoning_history (store : Store) (sid : String) :
    List ReasoningTrace :=
  (sortByTs (store.reasoning.filter fun e => e.sid == sid)).map
    (fun e => e.trace)

/-! ### The get_weather and search_database registrations,
from src/examples/docstring_tools_example.py -/

/-- Python round with no ndigits: round half to even. -/
def pyRound (q : Rat) : Int :=
  let f := ⌊q⌋
  let frac := q - f
  if frac < 1 / 2 then f
  else if 1 / 2 < frac then f + 1
  else if f % 2 = 0 then f else f + 1

def weatherTemperature (location : String) : Rat :=
  if location = "New York" then 75
  else if location = "San Francisco" then 65
  else if location = "Seattle" then 55
  else 70

def weatherCondition (location : String) : String :=
  if location = "New York" then "sunny"
  else if location = "San Francisco" then "foggy"
  else if location = "Seattle" then "rainy"
  else "unknown"

/-- get_weather from src/examples/docstring_tools_example.py: sample
weather lookup with imperial conversion. -/
def get_weather (location units : String) : JValue :=
  let temp := weatherTemperature location
  let temp2 :=
    if strToLower units = "imperial" then
      ((pyRound (temp * 9 / 5 + 32) : Int) : Rat)
    else temp
  JValue.obj
    [("temperature", JValue.num temp2),
     ("condition", JValue.str (weatherCondition location)),
     ("location", JValue.str location),
     ("units", JValue.str units)]

def weatherHandler (inputs : List (String × JValue)) : Except String JValue :=
  match lookupInput inputs "location", lookupInput inputs "units" with
  | some (JValue.str loc), some (JValue.str units) =>
    Except.ok (get_weather loc units)
  | _, _ => Except.error "TypeError: invalid arguments"

/-- The get_weather registration: everything extracted from the docstring;
signature get_weather(location: str, units: str = "metric"). -/
def getWeatherTool : ToolDef :=
  { name := "get_weather",
    description := "Get current weather information for a specified location.",
    paramDescs :=
      [("location", "City name or geographic coordinates to get weather for"),
       ("units", "Measurement system to use (metric or imperial)")],
    params :=
      [⟨"location", "string", none⟩,
       ⟨"units", "string", some (JValue.str "metric")⟩],
    handler := weatherHandler }

def recordToJson (r : DBRecord) : JValue :=
  JValue.obj
    [("id", JValue.num (r.id : Rat)), ("name", JValue.str ⟨r.name⟩),
     ("category", JValue.str ⟨r.category⟩)]

def searchHandler (inputs : List (String × JValue)) : Except String JValue :=
  match lookupInput inputs "query", lookupInput inputs "limit" with
  | some (JValue.str q), some (JValue.num l) =>
    if l.den = 1 then
      Except.ok (JValue.arr ((search_database q.data l.num).map recordToJson))
    else Except.error "TypeError: invalid arguments"
  | _, _ => Except.error "TypeError: invalid arguments"

/-- The search_database registration: signature
search_database(query: str, limit: int = 10). -/
def searchDatabaseTool : ToolDef :=
  { name := "search_database",
    description := "Search the database for records matching the query.",
    paramDescs :=
      [("query", "The search term to look for in the database"),
       ("limit", "Maximum number of results to return")],
    params :=
      [⟨"query", "string", none⟩,
       ⟨"limit", "integer", some (JValue.num 10)⟩],
    handler := searchHandler }

/-! ### Supporting definitions for concrete scenarios -/

def firstUserTurn : Turn := userTurn "First message"

def firstAssistantTurn : Turn := ⟨Role.assistant, [ContentBlock.text "First response"]⟩

def secondUserTurn : Turn := userTurn "Second message"

def secondAssistantTurn : Turn := ⟨Role.assistant, [ContentBlock.text "Second response"]⟩

/-- A model endpoint that immediately finishes with Second response. -/
def endTurnEnv (cap ttl : Nat) : AgentEnv :=
  { model := fun _ => ⟨StopReason.end_turn, secondAssistantTurn⟩,
    execTools := fun _ => (⟨Role.tool_result, []⟩, []),
    maxIterations := cap,
    sessionTTL := ttl }

def dummyAssistantToolUse : Turn :=
  ⟨Role.assistant, [ContentBlock.toolUse "t1" "get_weather" []]⟩

def dummyToolResultTurn : Turn :=
  ⟨Role.tool_result, [ContentBlock.toolResult "t1" [] "success"]⟩

/-- A model endpoint whose every response requests tool use. -/
def alwaysToolUseEnv : AgentEnv :=
  { model := fun _ => ⟨StopReason.tool_use, dummyAssistantToolUse⟩,
    execTools := fun _ => (dummyToolResultTurn, []),
    maxIterations := 3,
    sessionTTL := 3600 }

def testSessionStore : Store :=
  { sessions := [("testsession", ⟨[firstUserTurn, firstAssistantTurn], 2000⟩)],
    reasoning := [] }

def emptyStore : Store := ⟨[], []⟩

def exampleRegistry : Registry := [getWeatherTool, searchDatabaseTool]

def divideByZeroInputs : List (String × JValue) :=
  [("operation", JValue.str "divide"), ("number1", JValue.num 1),
   ("number2", JValue.num 0)]

def appleRecord : DBRecord := ⟨1, "Apple".data, "Fruit".data⟩

/-! ## Theorems -/

/-- Claim C2: for every session id, if no record exists or the stored
record's expiration_time is in the past, sessionLoad returns the empty
conversation rather than the stored turns and rather than a store error. -/
theorem sessionLoad_fails_open (table : SessionTable) (now : Nat) (sid : String) :
    (lookupSession table sid = none → sessionLoad table now sid = []) ∧
    (∀ r, lookupSession table sid = some r → r.expiration_time < now →
      sessionLoad table now sid = []) := by
  constructor
  · intro h
    simp [sessionLoad, h]
  · intro r h hexp
    have hnot : ¬ (now < r.expiration_time) := by omega
    simp [sessionLoad, h, hnot]

theorem sessionLoad_fails_open_witness :
    sessionLoad [] 5 "abc" = [] ∧
    sessionLoad [("abc", ⟨[userTurn "hi"], 3⟩)] 5 "abc" = [] := by
  refine ⟨(sessionLoad_fails_open [] 5 "abc").1 rfl, ?_⟩
  exact (sessionLoad_fails_open [("abc", ⟨[userTurn "hi"], 3⟩)] 5 "abc").2
    ⟨[userTurn "hi"], 3⟩ rfl (by decide)

theorem decodeBlock_encodeBlock (b : ContentBlock) :
    decodeBlock (encodeBlock b) = some b := by
  cases b <;> rfl

theorem decodeBlocks_map_encode (bs : List ContentBlock) :
    decodeBlocks (bs.map encodeBlock) = some bs := by
  induction bs with
  | nil => rfl
  | cons b bs ih => simp [decodeBlocks, decodeBlock_encodeBlock, ih]

theorem roleOfString_roleToString (r : Role) :
    roleOfString (roleToString r) = some r := by
  cases r <;> rfl

theorem decodeTurn_encodeTurn (t : Turn) : decodeTurn (encodeTurn t) = some t := by
  cases t with
  | mk role content =>
    simp [encodeTurn, decodeTurn, roleOfString_roleToString, decodeBlocks_map_encode]

theorem decodeTurns_map_encode (ts : List Turn) :
    decodeTurns (ts.map encodeTurn) = some ts := by
  induction ts with
  | nil => rfl
  | cons t ts ih => simp [decodeTurns, decodeTurn_encodeTurn, ih]

/-- Claim C6: serializing a non-empty conversation to the stored form and
restoring it yields the same ordered sequence of turns, preserving every
turn, its role, and the order and content of its content blocks. -/
theorem hydrate_snapshot (c : List Turn) (_hne : c ≠ []) :
    hydrate (snapshot c) = some c := by
  simp [hydrate, snapshot, decodeTurns_map_encode]

theorem hydrate_snapshot_witness :
    hydrate (snapshot [firstUserTurn, firstAssistantTurn]) =
      some [firstUserTurn, firstAssistantTurn] :=
  hydrate_snapshot [firstUserTurn, firstAssistantTurn] (by simp)

theorem pySplitAux_all_ws (text : List Char)
    (h : ∀ c ∈ text, c.isWhitespace) : pySplitAux text [] = [] := by
  induction text with
  | nil => rfl
  | cons c cs ih =>
    have hc : c.isWhitespace = true := h c (by simp)
    have hrest : ∀ x ∈ cs, x.isWhitespace = true := fun x hx => h x (by simp [hx])
    simp [pySplitAux, hc, ih hrest]

/-- Claim C9: count_words is division-safe on every input: the divisor
max(len(words), 1) is never zero, and on empty or whitespace-only input
the result is word_count 0, unique_words 0, average_word_length 0. -/
theorem count_words_safe (text : List Char) :
    ((max (pySplit text).length 1 : Nat) : Rat) ≠ 0 ∧
    ((∀ c ∈ text, c.isWhitespace) → count_words text = ⟨0, 0, 0⟩) := by
  constructor
  · have h1 : 1 ≤ max (pySplit text).length 1 := le_max_right _ _
    simp only [ne_eq, Nat.cast_eq_zero]
    omega
  · intro h
    have hsplit : pySplit text = [] := pySplitAux_all_ws text h
    simp [count_words, pySplit] at hsplit ⊢
    simp [hsplit]

theorem count_words_safe_witness :
    count_words [] = ⟨0, 0, 0⟩ ∧ count_words [' ', ' '] = ⟨0, 0, 0⟩ := by
  refine ⟨(count_words_safe []).2 (by simp), ?_⟩
  exact (count_words_safe [' ', ' ']).2 (by decide)

theorem runLoop_always_tool_use (env : AgentEnv)
    (h : ∀ conv, (env.model conv).stopReason = StopReason.tool_use) :
    ∀ (n : Nat) (conv : List Turn),
      (runLoop env n conv).modelCalls = n ∧
      (runLoop env n conv).degraded = true ∧
      (runLoop env n conv).conv.getLast? = some maxIterationsTurn := by
  intro n
  induction n with
  | zero =>
    intro conv
    refine ⟨rfl, rfl, ?_⟩
    simp [runLoop]
  | succ n ih =>
    intro conv
    have hs := h conv
    obtain ⟨h1, h2, h3⟩ :=
      ih (conv ++ [(env.model conv).message, (env.execTools (env.model conv).message).1])
    simp [runLoop, hs, h1, h2, h3]

/-- Claim C4: with the iteration cap configured to N and a model endpoint
whose every response requests tool use, the orchestration loop terminates
after exactly N model calls, marks the completion degraded, and appends a
synthetic final turn stating the limit was hit. -/
theorem iteration_cap (env : AgentEnv) (conv : List Turn)
    (h : ∀ c, (env.model c).stopReason = StopReason.tool_use) :
    (runLoop env env.maxIterations conv).modelCalls = env.maxIterations ∧
    (runLoop env env.maxIterations conv).degraded = true ∧
    (runLoop env env.maxIterations conv).conv.getLast? = some maxIterationsTurn :=
  runLoop_always_tool_use env h env.maxIterations conv

theorem iteration_cap_witness :
    (runLoop alwaysToolUseEnv alwaysToolUseEnv.maxIterations []).modelCalls = 3 ∧
    (runLoop alwaysToolUseEnv alwaysToolUseEnv.maxIterations []).degraded = true ∧
    (runLoop alwaysToolUseEnv alwaysToolUseEnv.maxIterations []).conv.getLast? =
      some maxIterationsTurn :=
  iteration_cap alwaysToolUseEnv [] (fun _ => rfl)

/-- Claim C3: for every registered tool and every input mapping, invoke
returns a result to the caller rather than propagating an exception; in
particular when the handler raises, the caller receives a structured
tool-error result carrying the error message. -/
theorem invoke_never_propagates (reg : Registry) (name : String)
    (inputs : List (String × JValue)) (t : ToolDef)
    (ht : lookupTool reg name = some t) :
    (∃ outcome, invoke reg name inputs = Except.ok outcome) ∧
    (∀ msg, (missingRequired t.params inputs).isEmpty = true →
      t.handler (withDefaults t.params inputs) = Except.error msg →
      invoke reg name inputs = Except.ok (ToolOutcome.error msg)) := by
  constructor
  · by_cases hmiss : (missingRequired t.params inputs).isEmpty = true
    · cases hh : t.handler (withDefaults t.params inputs) with
      | error m =>
        exact ⟨ToolOutcome.error m, by simp [invoke, ht, hmiss, hh]⟩
      | ok v =>
        exact ⟨ToolOutcome.success v, by simp [invoke, ht, hmiss, hh]⟩
    · exact ⟨ToolOutcome.error "ValidationError: missing required parameters",
        by simp [invoke, ht, hmiss]⟩
  · intro msg hmiss hh
    simp [invoke, ht, hmiss, hh]

theorem invoke_never_propagates_witness :
    invoke [calculatorTool] "calculator" divideByZeroInputs =
      Except.ok (ToolOutcome.error "Cannot divide by zero") :=
  (invoke_never_propagates [calculatorTool] "calculator" divideByZeroInputs
    calculatorTool rfl).2 "Cannot divide by zero" rfl rfl

theorem requiredNames_aux (descs : List (String × String)) (ps : List PyParam) :
    (((ps.map (resolveParam descs)).filter fun pr => pr.2.required).map
        fun pr => pr.1) =
      (ps.filter fun p => p.default.isNone).map (fun p => p.name) := by
  induction ps with
  | nil => rfl
  | cons p ps ih =>
    simp only [List.map_cons, List.filter_cons]
    by_cases hd : p.default.isNone = true <;> simp [resolveParam, hd, ih]

theorem requiredNames_resolveSchema (t : ToolDef) :
    requiredNames (resolveSchema t) =
      (t.params.filter fun p => p.default.isNone).map (fun p => p.name) :=
  requiredNames_aux t.paramDescs t.params

/-- Claim C5: for every set of valid tool registrations,
get_schema_for_model returns exactly one schema entry per registered tool,
and within each entry the parameters marked required are exactly the
handler parameters without a default value. -/
theorem schema_completeness (reg : Registry)
    (hnodup : ∀ t ∈ reg, (t.params.map (fun p => p.name)).Nodup) :
    (get_schema_for_model reg).length = reg.length ∧
    List.Forall₂
      (fun (entry : ToolSchema) (t : ToolDef) =>
        entry.toolName = t.name ∧
        ∀ p ∈ t.params, (p.name ∈ requiredNames entry ↔ p.default = none))
      (get_schema_for_model reg) reg := by
  constructor
  · simp [get_schema_for_model]
  · rw [get_schema_for_model, List.forall₂_map_left_iff]
    rw [List.forall₂_same]
    intro t hmem
    refine ⟨rfl, ?_⟩
    intro p hp
    rw [requiredNames_resolveSchema]
    constructor
    · intro hin
      obtain ⟨q, hq, hname⟩ := List.mem_map.mp hin
      have hqmem : q ∈ t.params := List.mem_of_mem_filter hq
      have hqdef : q.default.isNone = true := by
        have := List.of_mem_filter hq
        simpa using this
      have : q = p :=
        List.inj_on_of_nodup_map (hnodup t hmem) hqmem hp hname
      rw [← this]
      exact Option.isNone_iff_eq_none.mp hqdef
    · intro hdef
      refine List.mem_map.mpr ⟨p, ?_, rfl⟩
      refine List.mem_filter.mpr ⟨hp, ?_⟩
      simp [hdef]

theorem schema_completeness_witness :
    ((get_schema_for_model exampleRegistry).length = exampleRegistry.length ∧
      List.Forall₂
        (fun (entry : ToolSchema) (t : ToolDef) =>
          entry.toolName = t.name ∧
          ∀ p ∈ t.params, (p.name ∈ requiredNames entry ↔ p.default = none))
        (get_schema_for_model exampleRegistry) exampleRegistry) ∧
    requiredNames (resolveSchema getWeatherTool) = ["location"] ∧
    requiredNames (resolveSchema searchDatabaseTool) = ["query"] :=
  ⟨schema_completeness exampleRegistry (by decide), rfl, rfl⟩

theorem searchLoop_spec (query : List Char) (limit : Int) :
    ∀ (db results : List DBRecord),
      (∀ r ∈ results, recordMatches query r = true) →
      (((results.length : Int) < limit) ∨ results = []) →
      (∀ r ∈ searchLoop query limit results db, recordMatches query r = true) ∧
      ((searchLoop query limit results db).length : Int) ≤ max limit 1 := by
  intro db
  induction db with
  | nil =>
    intro results hmatch hinv
    have hmax1 : limit ≤ max limit 1 := le_max_left _ _
    have hmax2 : (1 : Int) ≤ max limit 1 := le_max_right _ _
    refine ⟨fun r hr => hmatch r hr, ?_⟩
    rcases hinv with h | h
    · simp only [searchLoop]
      omega
    · subst h
      simp [searchLoop]
  | cons item rest ih =>
    intro results hmatch hinv
    have hmax1 : limit ≤ max limit 1 := le_max_left _ _
    have hmax2 : (1 : Int) ≤ max limit 1 := le_max_right _ _
    by_cases hm : recordMatches query item = true
    · have hmatch2 : ∀ r ∈ results ++ [item], recordMatches query r = true := by
        intro r hr
        rcases List.mem_append.mp hr with h | h
        · exact hmatch r h
        · simp only [List.mem_singleton] at h
          subst h
          exact hm
      by_cases hlim : ((results ++ [item]).length : Int) ≥ limit
      · have hout : searchLoop query limit results (item :: rest) = results ++ [item] := by
          simp only [searchLoop, hm, if_true]
          rw [if_pos hlim]
        rw [hout]
        refine ⟨hmatch2, ?_⟩
        simp only [List.length_append, List.length_cons, List.length_nil]
        rcases hinv with h | h
        · push_cast
          omega
        · subst h
          simp
      · have hout : searchLoop query limit results (item :: rest) =
            searchLoop query limit (results ++ [item]) rest := by
          simp only [searchLoop, hm, if_true]
          rw [if_neg hlim]
        rw [hout]
        exact ih (results ++ [item]) hmatch2 (Or.inl (by omega))
    · have hout : searchLoop query limit results (item :: rest) =
          searchLoop query limit results rest := by
        simp [searchLoop, hm]
      rw [hout]
      exact ih results hmatch hinv

/-- Claim C10: every record search_database returns contains the query
case-insensitively in its name or category, and the result holds at most
max(limit, 1) records — for limit at most 0 one matching record can still
be returned, because the limit check runs only after a record is
appended. -/
theorem search_database_post (query : List Char) (limit : Int) :
    ((search_database query limit).length : Int) ≤ max limit 1 ∧
    ∀ r ∈ search_database query limit, recordMatches query r = true := by
  have h := searchLoop_spec query limit database [] (by simp) (Or.inr rfl)
  exact ⟨h.2, h.1⟩

theorem search_database_post_witness :
    search_database "apple".data 0 = [appleRecord] ∧
    recordMatches "apple".data appleRecord = true ∧
    ((search_database "apple".data 0).length : Int) ≤ max 0 1 := by
  have h1 : search_database "apple".data 0 = [appleRecord] := by decide
  refine ⟨h1, ?_, (search_database_post "apple".data 0).1⟩
  exact (search_database_post "apple".data 0).2 appleRecord (by rw [h1]; simp)

theorem lookupSession_filter_ne (sid sid' : String) (h : sid' ≠ sid) :
    ∀ table : SessionTable,
      lookupSession (table.filter fun e => e.1 != sid) sid' =
        lookupSession table sid' := by
  intro table
  induction table with
  | nil => rfl
  | cons e rest ih =>
    by_cases he : e.1 = sid
    · have hp : (e.1 != sid) = false := by simp [he]
      have hne : ¬ (e.1 = sid') := by
        rw [he]
        exact fun hh => h hh.symm
      simp [List.filter_cons, hp, lookupSession, hne, ih]
    · have hp : (e.1 != sid) = true := by simp [he]
      by_cases hq : e.1 = sid' <;> simp [List.filter_cons, hp, lookupSession, hq, ih, h]

theorem lookupSession_save_self (table : SessionTable) (sid : String)
    (conv : List Turn) (exp : Nat) :
    lookupSession (sessionSave table sid conv exp) sid = some ⟨conv, exp⟩ := by
  simp [sessionSave, lookupSession]

theorem lookupSession_save_ne (table : SessionTable) (sid sid' : String)
    (conv : List Turn) (exp : Nat) (h : sid' ≠ sid) :
    lookupSession (sessionSave table sid conv exp) sid' =
      lookupSession table sid' := by
  have hne : ¬ (sid = sid') := fun hh => h hh.symm
  simp only [sessionSave, lookupSession, hne, if_false]
  exact lookupSession_filter_ne sid sid' h table

/-- Claim C1: with a stored session holding user First message then
assistant First response, run with Second message sends the model endpoint
exactly the message list with those two turns, in order, followed by the
new user turn; afterwards the stored record for the session holds all four
turns — the three above plus the new assistant reply — in that order. -/
theorem session_continuity (cap ttl now exp2 : Nat) (sid : String) (store : Store)
    (hvalid : validSessionId sid = true)
    (hrec : lookupSession store.sessions sid =
      some ⟨[firstUserTurn, firstAssistantTurn], exp2⟩)
    (hfresh : now < exp2) (hcap : 0 < cap) :
    (run (endTurnEnv cap ttl) store now "Second message" (some sid)).requests =
      [[firstUserTurn, firstAssistantTurn, secondUserTurn]] ∧
    lookupSession
      (run (endTurnEnv cap ttl) store now "Second message" (some sid)).store.sessions
      sid =
      some ⟨[firstUserTurn, firstAssistantTurn, secondUserTurn, secondAssistantTurn],
        now + ttl⟩ := by
  obtain ⟨m, rfl⟩ : ∃ m, cap = m + 1 := ⟨cap - 1, by omega⟩
  have hload : sessionLoad store.sessions now sid =
      [firstUserTurn, firstAssistantTurn] := by
    simp [sessionLoad, hrec, hfresh]
  constructor
  · simp [run, hvalid, hload, endTurnEnv, runLoop, secondUserTurn, userTurn]
  · simp [run, hvalid, hload, endTurnEnv, runLoop, secondUserTurn, userTurn,
      lookupSession_save_self]

theorem session_continuity_witness :
    (run (endTurnEnv 10 3600) testSessionStore 1000 "Second message"
      (some "testsession")).requests =
      [[firstUserTurn, firstAssistantTurn, secondUserTurn]] ∧
    lookupSession
      (run (endTurnEnv 10 3600) testSessionStore 1000 "Second message"
        (some "testsession")).store.sessions "testsession" =
      some ⟨[firstUserTurn, firstAssistantTurn, secondUserTurn, secondAssistantTurn],
        1000 + 3600⟩ :=
  session_continuity 10 3600 1000 2000 "testsession" testSessionStore
    (by decide) rfl (by decide) (by decide)

theorem run_reasoning_append (env : AgentEnv) (store : Store) (now : Nat)
    (q sid : String) (hvalid : validSessionId sid = true) :
    (run env store now q (some sid)).store.reasoning =
      store.reasoning ++ [⟨sid, now, (run env store now q (some sid)).trace⟩] := by
  simp [run, hvalid]

/-- Claim C7: after exactly two sequential run calls sharing one session
id, get_reasoning_history returns exactly 2 entries, oldest first, each
entry being the reasoning trace of one of the two invocations. -/
theorem reasoning_history_two_runs (env1 env2 : AgentEnv) (store0 : Store)
    (t1 t2 : Nat) (q1 q2 sid : String)
    (hvalid : validSessionId sid = true)
    (hclean : ∀ e ∈ store0.reasoning, e.sid ≠ sid)
    (horder : t1 < t2) :
    get_reasoning_history
      (run env2 (run env1 store0 t1 q1 (some sid)).store t2 q2 (some sid)).store
      sid =
      [(run env1 store0 t1 q1 (some sid)).trace,
       (run env2 (run env1 store0 t1 q1 (some sid)).store t2 q2 (some sid)).trace] := by
  have h1 := run_reasoning_append env1 store0 t1 q1 sid hvalid
  have h2 := run_reasoning_append env2 (run env1 store0 t1 q1 (some sid)).store
    t2 q2 sid hvalid
  rw [get_reasoning_history, h2, h1]
  have hfilter : (store0.reasoning.filter fun e => e.sid == sid) = [] := by
    rw [List.filter_eq_nil_iff]
    intro e he
    simp [hclean e he]
  simp [List.filter_append, hfilter, sortByTs, insertByTs, horder]

theorem reasoning_history_two_runs_witness :
    get_reasoning_history
      (run (endTurnEnv 10 3600)
        (run (endTurnEnv 10 3600) emptyStore 100 "q1" (some "sess1")).store
        200 "q2" (some "sess1")).store "sess1" =
      [(run (endTurnEnv 10 3600) emptyStore 100 "q1" (some "sess1")).trace,
       (run (endTurnEnv 10 3600)
         (run (endTurnEnv 10 3600) emptyStore 100 "q1" (some "sess1")).store
         200 "q2" (some "sess1")).trace] :=
  reasoning_history_two_runs (endTurnEnv 10 3600) (endTurnEnv 10 3600)
    emptyStore 100 200 "q1" "q2" "sess1" (by decide)
    (fun e he => absurd he (List.not_mem_nil e)) (by decide)

/-- Claim C8: a run call supplying a session id outside the validated
pattern (alphanumeric, bounded length) leaves the store untouched — no
session record is created under it — and any session id whose record run
creates or overwrites is the supplied, pattern-valid session id. -/
theorem session_id_validation (env : AgentEnv) (store : Store) (now : Nat)
    (q : String) (sidOpt : Option String) :
    (∀ sid, sidOpt = some sid → validSessionId sid = false →
      (run env store now q sidOpt).store = store) ∧
    (∀ sid', lookupSession (run env store now q sidOpt).store.sessions sid' ≠
        lookupSession store.sessions sid' →
      ∃ sid, sidOpt = some sid ∧ sid' = sid ∧ validSessionId sid = true) := by
  constructor
  · intro sid hs hinvalid
    subst hs
    simp [run, hinvalid]
  · intro sid' hch
    cases sidOpt with
    | none =>
      exact absurd rfl hch
    | some sid =>
      by_cases hv : validSessionId sid = true
      · refine ⟨sid, rfl, ?_, hv⟩
        by_contra hne
        apply hch
        have hsess : (run env store now q (some sid)).store.sessions =
            sessionSave store.sessions sid
              (runLoop env env.maxIterations
                (sessionLoad store.sessions now sid ++ [userTurn q])).conv
              (now + env.sessionTTL) := by
          simp [run, hv]
        rw [hsess]
        exact lookupSession_save_ne _ _ _ _ _ hne
      · have hv' : validSessionId sid = false := by
          cases hb : validSessionId sid
          · rfl
          · exact absurd hb hv
        have : (run env store now q (some sid)).store = store := by
          simp [run, hv']
        rw [this] at hch
        exact absurd rfl hch

theorem session_id_validation_witness :
    (run (endTurnEnv 10 3600) emptyStore 0 "hello" (some "bad id")).store =
      emptyStore :=
  (session_id_validation (endTurnEnv 10 3600) emptyStore 0 "hello"
    (some "bad id")).1 "bad id" rfl (by decide)

end MinimalAgent
